import Mathlib

/-!
Shallow embedding of the collaboration-network extraction and aggregation core
of the bibliometric dashboard repository (src/app.py and src/step_app.py).

Modelling conventions:
* Python dicts for authors / institutions / authorship entries become Lean
  structures whose fields are `Option`-valued (a missing key is `none`).
* `d['k']` (direct subscript, may raise `KeyError`) is `pyGet`, in the
  `Except PyErr` monad; `d.get('k')` is plain `Option` access; `d.get('k', v)`
  is `Option.getD`.
* The `authorships` column value of one row is `AuthorshipsVal`: either an
  already-structured list (`struct`) or JSON text (`text d`), where `d = some l`
  means the text decodes to the list `l` and `d = none` means decoding fails
  (so `json.loads` raises `ValueError`).  `json.loads` itself is a library
  call; only its decode-or-raise contract is modelled.
* Python string operations (`in`, `split`, `strip`) are re-implemented over
  `List Char` with Python semantics.
* Python loops with `break`/early `return` become structural recursions, one
  named Lean function per loop.
-/

inductive PyErr where
  | keyError
  | valueError
  | operationalError
deriving DecidableEq, Repr

/-- `d['k']` on a Python dict: value if the key is present, `KeyError` otherwise. -/
def pyGet {α : Type} (o : Option α) : Except PyErr α :=
  match o with
  | some a => Except.ok a
  | none => Except.error PyErr.keyError

/-- One `institutions` entry of an authorship (OpenAlex shape). -/
structure Institution where
  id : Option String
  display_name : Option String
  country_code : Option String
deriving DecidableEq, Repr

/-- The `author` sub-dict of an authorship entry. -/
structure Author where
  display_name : Option String
deriving DecidableEq, Repr

/-- One author-affiliation entry of the `authorships` list. -/
structure Authorship where
  author : Option Author
  institutions : Option (List Institution)
  countries : Option (List String)
  raw_affiliation_strings : Option (List String)
deriving DecidableEq, Repr

/-- The value held by one row's `authorships` field: already a structured list,
or JSON text that decodes to `l` (`text (some l)`) or fails (`text none`). -/
inductive AuthorshipsVal where
  | struct (l : List Authorship)
  | text (d : Option (List Authorship))
deriving DecidableEq, Repr

/-- `json.loads` contract on an authorships text: the decoded list, or `ValueError`. -/
def json_loads (d : Option (List Authorship)) : Except PyErr (List Authorship) :=
  match d with
  | some l => Except.ok l
  | none => Except.error PyErr.valueError

/-- `authorships = json.loads(authorships) if isinstance(authorships, str)`:
the per-function entry normalisation shared by the app.py extractors. -/
def decodeAuthorshipsVal (v : AuthorshipsVal) : Except PyErr (List Authorship) :=
  match v with
  | AuthorshipsVal.struct l => Except.ok l
  | AuthorshipsVal.text d => json_loads d

/-- The fixed OpenAlex identifier of the home institution (KHCC), as used by
the id-based code paths. -/
def khccId : String := "https://openalex.org/I2799468983"

/-- The fixed display name of the home institution, as used by the
name-based code paths. -/
def khccName : String := "King Hussein Cancer Center"

/-! ## Classification result of one authorship entry -/

/-- How one pass over an authorship entry classifies it: home author with a
name, external author with a name, or skipped (no relevant data). -/
inductive Cls where
  | home (name : String)
  | ext (name : String)
  | skip
deriving DecidableEq, Repr

/-- `authorship['author']['display_name']` (both subscripts direct). -/
def authorDisplayName (a : Authorship) : Except PyErr String := do
  let au ← pyGet a.author
  pyGet au.display_name

/-! ## app.py `extract_khcc_and_collaborator_links` (lines 497-524)

First pass: an entry is a KHCC author when some institution's
`inst['display_name']` equals the KHCC name (direct subscript, scanned in
order with `break`); on a hit the author display name is appended.  An entry
that is not KHCC and has an `author` key contributes its author name to the
external list.  The links are the product KHCC-authors x external-authors. -/

/-- The inner `for inst in authorship['institutions']` loop of
`extract_khcc_and_collaborator_links`: scan institutions in order, reading
`inst['display_name']` directly, stopping at the first KHCC name. -/
def scanInstsKhccName (insts : List Institution) : Except PyErr Bool :=
  match insts with
  | [] => Except.ok false
  | inst :: rest => do
    let dn ← pyGet inst.display_name
    if dn = khccName then Except.ok true
    else scanInstsKhccName rest

/-- Classification of one entry by `extract_khcc_and_collaborator_links`:
KHCC by display-name scan (appending `authorship['author']['display_name']`),
otherwise external when the `author` key is present. -/
def classifyLinksEntry (a : Authorship) : Except PyErr Cls := do
  let isKhcc ← match a.institutions with
    | some insts => scanInstsKhccName insts
    | none => Except.ok false
  if isKhcc then do
    let nm ← authorDisplayName a
    Except.ok (Cls.home nm)
  else
    match a.author with
    | some au => do
      let nm ← pyGet au.display_name
      Except.ok (Cls.ext nm)
    | none => Except.ok Cls.skip

/-- The first pass of `extract_khcc_and_collaborator_links`: the
`khcc_authors` and `external_authors` lists, in order. -/
def firstPassLinks (auths : List Authorship) : Except PyErr (List String × List String) :=
  match auths with
  | [] => Except.ok ([], [])
  | a :: rest => do
    let c ← classifyLinksEntry a
    let (ks, es) ← firstPassLinks rest
    match c with
    | Cls.home nm => Except.ok (nm :: ks, es)
    | Cls.ext nm => Except.ok (ks, nm :: es)
    | Cls.skip => Except.ok (ks, es)

/-- The nested `for khcc_author ... for external_author ...` product loop. -/
def pairProduct (ks es : List String) : List (String × String) :=
  match ks with
  | [] => []
  | k :: ks' => es.map (fun e => (k, e)) ++ pairProduct ks' es

/-- app.py `extract_khcc_and_collaborator_links`. -/
def extract_khcc_and_collaborator_links (v : AuthorshipsVal) :
    Except PyErr (List (String × String)) := do
  let auths ← decodeAuthorshipsVal v
  let (ks, es) ← firstPassLinks auths
  Except.ok (pairProduct ks es)

/-! ## Membership lemmas -/

theorem mem_pairProduct {ks es : List String} {p : String × String} :
    p ∈ pairProduct ks es ↔ p.1 ∈ ks ∧ p.2 ∈ es := by
  induction ks with
  | nil => simp [pairProduct]
  | cons k ks' ih =>
    simp only [pairProduct, List.mem_append, List.mem_map, ih, List.mem_cons]
    constructor
    · rintro (⟨e, he, rfl⟩ | ⟨h1, h2⟩)
      · exact ⟨Or.inl rfl, he⟩
      · exact ⟨Or.inr h1, h2⟩
    · rintro ⟨h1 | h1, h2⟩
      · subst h1
        exact Or.inl ⟨p.2, h2, rfl⟩
      · exact Or.inr ⟨h1, h2⟩

theorem exceptBind_ok {α β : Type} {ε : Type} (a : α) (f : α → Except ε β) :
    (Except.ok a >>= f) = f a := rfl

theorem exceptBind_err {α β : Type} {ε : Type} (e : ε) (f : α → Except ε β) :
    ((Except.error e : Except ε α) >>= f) = Except.error e := rfl

theorem firstPassLinks_sound {auths : List Authorship} {ks es : List String}
    (h : firstPassLinks auths = Except.ok (ks, es)) :
    (∀ k ∈ ks, ∃ a ∈ auths, classifyLinksEntry a = Except.ok (Cls.home k)) ∧
    (∀ e ∈ es, ∃ a ∈ auths, classifyLinksEntry a = Except.ok (Cls.ext e)) := by
  induction auths generalizing ks es with
  | nil =>
    simp only [firstPassLinks] at h
    cases h
    simp
  | cons a rest ih =>
    simp only [firstPassLinks] at h
    cases hc : classifyLinksEntry a with
    | error e => rw [hc, exceptBind_err] at h; exact absurd h (by simp)
    | ok c =>
      rw [hc, exceptBind_ok] at h
      cases hr : firstPassLinks rest with
      | error e => rw [hr, exceptBind_err] at h; exact absurd h (by simp)
      | ok pr =>
        rw [hr, exceptBind_ok] at h
        obtain ⟨ks', es'⟩ := pr
        have ihs := ih hr
        cases c with
        | home nm =>
          cases h
          constructor
          · intro k hk
            rcases List.mem_cons.mp hk with hk | hk
            · exact ⟨a, List.mem_cons_self a rest, by rw [hc, hk]⟩
            · obtain ⟨a', ha', hca'⟩ := ihs.1 k hk
              exact ⟨a', List.mem_cons_of_mem a ha', hca'⟩
          · intro e he
            obtain ⟨a', ha', hca'⟩ := ihs.2 e he
            exact ⟨a', List.mem_cons_of_mem a ha', hca'⟩
        | ext nm =>
          cases h
          constructor
          · intro k hk
            obtain ⟨a', ha', hca'⟩ := ihs.1 k hk
            exact ⟨a', List.mem_cons_of_mem a ha', hca'⟩
          · intro e he
            rcases List.mem_cons.mp he with he | he
            · exact ⟨a, List.mem_cons_self a rest, by rw [hc, he]⟩
            · obtain ⟨a', ha', hca'⟩ := ihs.2 e he
              exact ⟨a', List.mem_cons_of_mem a ha', hca'⟩
        | skip =>
          cases h
          constructor
          · intro k hk
            obtain ⟨a', ha', hca'⟩ := ihs.1 k hk
            exact ⟨a', List.mem_cons_of_mem a ha', hca'⟩
          · intro e he
            obtain ⟨a', ha', hca'⟩ := ihs.2 e he
            exact ⟨a', List.mem_cons_of_mem a ha', hca'⟩

/-! ## app.py `extract_khcc_authors` (lines 526-539) and the external-author
loop of `create_sankey_diagram` (lines 541-570): id-based classification -/

/-- `any(inst.get('id') == KHCC_ID for inst in authorship['institutions'])`,
with a missing `institutions` key treated as no match (the loop guarded by
`if 'institutions' in authorship`). -/
def isKhccIdB (a : Authorship) : Bool :=
  match a.institutions with
  | some insts => insts.any (fun i => i.id == some khccId)
  | none => false

/-- app.py `extract_khcc_authors`: authors whose institutions carry the KHCC
OpenAlex id; the author name is read by direct subscript on a hit. -/
def extract_khcc_authors (auths : List Authorship) : Except PyErr (List String) :=
  match auths with
  | [] => Except.ok []
  | a :: rest =>
    if isKhccIdB a then do
      let nm ← authorDisplayName a
      let r ← extract_khcc_authors rest
      Except.ok (nm :: r)
    else extract_khcc_authors rest

/-- The external-author loop inside app.py `create_sankey_diagram`: every
entry without a KHCC-id institution contributes `auth['author']['display_name']`
(direct subscripts). -/
def sankeyExternalAuthors (auths : List Authorship) : Except PyErr (List String) :=
  match auths with
  | [] => Except.ok []
  | a :: rest =>
    if isKhccIdB a then sankeyExternalAuthors rest
    else do
      let nm ← authorDisplayName a
      let r ← sankeyExternalAuthors rest
      Except.ok (nm :: r)

/-- The per-paper pair production of app.py `create_sankey_diagram`:
KHCC authors (id-based) crossed with external authors (id-based complement). -/
def sankeyPaperPairs (auths : List Authorship) : Except PyErr (List (String × String)) := do
  let ks ← extract_khcc_authors auths
  let es ← sankeyExternalAuthors auths
  Except.ok (pairProduct ks es)

theorem extract_khcc_authors_sound {auths : List Authorship} {ks : List String}
    (h : extract_khcc_authors auths = Except.ok ks) :
    ∀ k ∈ ks, ∃ a ∈ auths, isKhccIdB a = true ∧ authorDisplayName a = Except.ok k := by
  induction auths generalizing ks with
  | nil =>
    simp only [extract_khcc_authors] at h
    cases h
    simp
  | cons a rest ih =>
    simp only [extract_khcc_authors] at h
    by_cases hk : isKhccIdB a
    · rw [if_pos hk] at h
      cases hn : authorDisplayName a with
      | error e => rw [hn, exceptBind_err] at h; exact absurd h (by simp)
      | ok nm =>
        rw [hn, exceptBind_ok] at h
        cases hr : extract_khcc_authors rest with
        | error e => rw [hr, exceptBind_err] at h; exact absurd h (by simp)
        | ok ks' =>
          rw [hr, exceptBind_ok] at h
          cases h
          intro k hkm
          rcases List.mem_cons.mp hkm with hkm | hkm
          · exact ⟨a, List.mem_cons_self a rest, hk, by rw [hn, hkm]⟩
          · obtain ⟨a', ha', h1, h2⟩ := ih hr k hkm
            exact ⟨a', List.mem_cons_of_mem a ha', h1, h2⟩
    · rw [if_neg hk] at h
      intro k hkm
      obtain ⟨a', ha', h1, h2⟩ := ih h k hkm
      exact ⟨a', List.mem_cons_of_mem a ha', h1, h2⟩

theorem sankeyExternalAuthors_sound {auths : List Authorship} {es : List String}
    (h : sankeyExternalAuthors auths = Except.ok es) :
    ∀ e ∈ es, ∃ a ∈ auths, isKhccIdB a = false ∧ authorDisplayName a = Except.ok e := by
  induction auths generalizing es with
  | nil =>
    simp only [sankeyExternalAuthors] at h
    cases h
    simp
  | cons a rest ih =>
    simp only [sankeyExternalAuthors] at h
    by_cases hk : isKhccIdB a
    · rw [if_pos hk] at h
      intro e hem
      obtain ⟨a', ha', h1, h2⟩ := ih h e hem
      exact ⟨a', List.mem_cons_of_mem a ha', h1, h2⟩
    · rw [if_neg hk] at h
      cases hn : authorDisplayName a with
      | error er => rw [hn, exceptBind_err] at h; exact absurd h (by simp)
      | ok nm =>
        rw [hn, exceptBind_ok] at h
        cases hr : sankeyExternalAuthors rest with
        | error er => rw [hr, exceptBind_err] at h; exact absurd h (by simp)
        | ok es' =>
          rw [hr, exceptBind_ok] at h
          cases h
          intro e hem
          rcases List.mem_cons.mp hem with hem | hem
          · exact ⟨a, List.mem_cons_self a rest, Bool.eq_false_iff.mpr hk, by rw [hn, hem]⟩
          · obtain ⟨a', ha', h1, h2⟩ := ih hr e hem
            exact ⟨a', List.mem_cons_of_mem a ha', h1, h2⟩

/-! ## step_app.py `create_sankey_diagram` per-paper loop (lines 652-696):
display-name classification via `.get`, author name via direct subscript on
`a['author']` then `.get('display_name', default)`. -/

/-- `any(inst.get('display_name') == "King Hussein Cancer Center" ...)` with a
missing `institutions` key treated as no match. -/
def stepIsKhccNameB (a : Authorship) : Bool :=
  match a.institutions with
  | some insts => insts.any (fun i => i.display_name == some khccName)
  | none => false

/-- Classification of one entry by the step_app sankey loop: home or external
by display-name test, name defaulted per branch. -/
def stepSankeyClassify (a : Authorship) : Except PyErr Cls := do
  let au ← pyGet a.author
  if stepIsKhccNameB a then
    Except.ok (Cls.home (au.display_name.getD "KHCC Unknown"))
  else
    Except.ok (Cls.ext (au.display_name.getD "External Unknown"))

/-- The step_app sankey per-paper loop building `khcc_list` and `ext_list`. -/
def stepSankeyFirstPass (auths : List Authorship) :
    Except PyErr (List String × List String) :=
  match auths with
  | [] => Except.ok ([], [])
  | a :: rest => do
    let c ← stepSankeyClassify a
    let (ks, es) ← stepSankeyFirstPass rest
    match c with
    | Cls.home nm => Except.ok (nm :: ks, es)
    | Cls.ext nm => Except.ok (ks, nm :: es)
    | Cls.skip => Except.ok (ks, es)

theorem stepSankeyFirstPass_sound {auths : List Authorship} {ks es : List String}
    (h : stepSankeyFirstPass auths = Except.ok (ks, es)) :
    (∀ k ∈ ks, ∃ a ∈ auths, stepSankeyClassify a = Except.ok (Cls.home k)) ∧
    (∀ e ∈ es, ∃ a ∈ auths, stepSankeyClassify a = Except.ok (Cls.ext e)) := by
  induction auths generalizing ks es with
  | nil =>
    simp only [stepSankeyFirstPass] at h
    cases h
    simp
  | cons a rest ih =>
    simp only [stepSankeyFirstPass] at h
    cases hc : stepSankeyClassify a with
    | error e => rw [hc, exceptBind_err] at h; exact absurd h (by simp)
    | ok c =>
      rw [hc, exceptBind_ok] at h
      cases hr : stepSankeyFirstPass rest with
      | error e => rw [hr, exceptBind_err] at h; exact absurd h (by simp)
      | ok pr =>
        rw [hr, exceptBind_ok] at h
        obtain ⟨ks', es'⟩ := pr
        have ihs := ih hr
        cases c with
        | home nm =>
          cases h
          refine ⟨fun k hk => ?_, fun e he => ?_⟩
          · rcases List.mem_cons.mp hk with hk | hk
            · exact ⟨a, List.mem_cons_self a rest, by rw [hc, hk]⟩
            · obtain ⟨a', ha', hca'⟩ := ihs.1 k hk
              exact ⟨a', List.mem_cons_of_mem a ha', hca'⟩
          · obtain ⟨a', ha', hca'⟩ := ihs.2 e he
            exact ⟨a', List.mem_cons_of_mem a ha', hca'⟩
        | ext nm =>
          cases h
          refine ⟨fun k hk => ?_, fun e he => ?_⟩
          · obtain ⟨a', ha', hca'⟩ := ihs.1 k hk
            exact ⟨a', List.mem_cons_of_mem a ha', hca'⟩
          · rcases List.mem_cons.mp he with he | he
            · exact ⟨a, List.mem_cons_self a rest, by rw [hc, he]⟩
            · obtain ⟨a', ha', hca'⟩ := ihs.2 e he
              exact ⟨a', List.mem_cons_of_mem a ha', hca'⟩
        | skip =>
          cases h
          refine ⟨fun k hk => ?_, fun e he => ?_⟩
          · obtain ⟨a', ha', hca'⟩ := ihs.1 k hk
            exact ⟨a', List.mem_cons_of_mem a ha', hca'⟩
          · obtain ⟨a', ha', hca'⟩ := ihs.2 e he
            exact ⟨a', List.mem_cons_of_mem a ha', hca'⟩

/-! ## Claim C1 -/

/-- C1: for every publication's authorships input, every (home-author,
external-author) pair produced by the pair-extraction steps (app.py
`extract_khcc_and_collaborator_links`, the per-paper pair loop of app.py
`create_sankey_diagram`, and the per-paper pair loop of step_app.py
`create_sankey_diagram`) pairs the name of an authorship entry classified as
home with the name of an authorship entry classified as external (not home);
no produced pair draws both members from home-classified entries. -/
theorem spec_c1_pair_extraction_home_external :
    (∀ (auths : List Authorship) (links : List (String × String)),
      extract_khcc_and_collaborator_links (AuthorshipsVal.struct auths) = Except.ok links →
      ∀ p ∈ links,
        (∃ a ∈ auths, classifyLinksEntry a = Except.ok (Cls.home p.1)) ∧
        (∃ a ∈ auths, classifyLinksEntry a = Except.ok (Cls.ext p.2))) ∧
    (∀ (auths : List Authorship) (links : List (String × String)),
      sankeyPaperPairs auths = Except.ok links →
      ∀ p ∈ links,
        (∃ a ∈ auths, isKhccIdB a = true ∧ authorDisplayName a = Except.ok p.1) ∧
        (∃ a ∈ auths, isKhccIdB a = false ∧ authorDisplayName a = Except.ok p.2)) ∧
    (∀ (auths : List Authorship) (ks es : List String),
      stepSankeyFirstPass auths = Except.ok (ks, es) →
      ∀ p ∈ pairProduct ks es,
        (∃ a ∈ auths, stepSankeyClassify a = Except.ok (Cls.home p.1)) ∧
        (∃ a ∈ auths, stepSankeyClassify a = Except.ok (Cls.ext p.2))) := by
  refine ⟨?_, ?_, ?_⟩
  · intro auths links h p hp
    simp only [extract_khcc_and_collaborator_links, decodeAuthorshipsVal,
      exceptBind_ok] at h
    cases hf : firstPassLinks auths with
    | error e => rw [hf, exceptBind_err] at h; exact absurd h (by simp)
    | ok pr =>
      obtain ⟨ks, es⟩ := pr
      rw [hf, exceptBind_ok] at h
      cases h
      have hs := firstPassLinks_sound hf
      have hm := mem_pairProduct.mp hp
      exact ⟨hs.1 p.1 hm.1, hs.2 p.2 hm.2⟩
  · intro auths links h p hp
    simp only [sankeyPaperPairs] at h
    cases hk : extract_khcc_authors auths with
    | error e => rw [hk, exceptBind_err] at h; exact absurd h (by simp)
    | ok ks =>
      rw [hk, exceptBind_ok] at h
      cases he : sankeyExternalAuthors auths with
      | error e => rw [he, exceptBind_err] at h; exact absurd h (by simp)
      | ok es =>
        rw [he, exceptBind_ok] at h
        cases h
        have hm := mem_pairProduct.mp hp
        exact ⟨extract_khcc_authors_sound hk p.1 hm.1,
               sankeyExternalAuthors_sound he p.2 hm.2⟩
  · intro auths ks es h p hp
    have hs := stepSankeyFirstPass_sound h
    have hm := mem_pairProduct.mp hp
    exact ⟨hs.1 p.1 hm.1, hs.2 p.2 hm.2⟩

/-- Concrete two-entry authorships used to witness C1: one KHCC author (by
display name), one external author. -/
def c1HomeEntry : Authorship :=
  { author := some { display_name := some "K" }
    institutions := some [{ id := some khccId, display_name := some khccName,
                            country_code := some "JO" }]
    countries := some ["JO"]
    raw_affiliation_strings := none }

def c1ExtEntry : Authorship :=
  { author := some { display_name := some "E" }
    institutions := some [{ id := some "https://openalex.org/I999",
                            display_name := some "Foreign U",
                            country_code := some "US" }]
    countries := some ["US"]
    raw_affiliation_strings := none }

theorem spec_c1_pair_extraction_home_external_witness :
    ((∃ a ∈ [c1HomeEntry, c1ExtEntry],
        classifyLinksEntry a = Except.ok (Cls.home "K")) ∧
     (∃ a ∈ [c1HomeEntry, c1ExtEntry],
        classifyLinksEntry a = Except.ok (Cls.ext "E"))) ∧
    ((∃ a ∈ [c1HomeEntry, c1ExtEntry],
        isKhccIdB a = true ∧ authorDisplayName a = Except.ok "K") ∧
     (∃ a ∈ [c1HomeEntry, c1ExtEntry],
        isKhccIdB a = false ∧ authorDisplayName a = Except.ok "E")) ∧
    ((∃ a ∈ [c1HomeEntry, c1ExtEntry],
        stepSankeyClassify a = Except.ok (Cls.home "K")) ∧
     (∃ a ∈ [c1HomeEntry, c1ExtEntry],
        stepSankeyClassify a = Except.ok (Cls.ext "E"))) := by
  refine ⟨?_, ?_, ?_⟩
  · exact spec_c1_pair_extraction_home_external.1 [c1HomeEntry, c1ExtEntry]
      [("K", "E")] rfl ("K", "E") (by decide)
  · exact spec_c1_pair_extraction_home_external.2.1 [c1HomeEntry, c1ExtEntry]
      [("K", "E")] rfl ("K", "E") (by decide)
  · exact spec_c1_pair_extraction_home_external.2.2 [c1HomeEntry, c1ExtEntry]
      ["K"] ["E"] rfl ("K", "E") (by decide)

/-! ## Python string operations over `List Char` -/

/-- Whether `n` is a prefix of `h` (character lists). -/
def startsWithChars : List Char → List Char → Bool
  | [], _ => true
  | _ :: _, [] => false
  | a :: as, b :: bs => a == b && startsWithChars as bs

/-- Whether `n` occurs contiguously in `h`: Python `n in h` on strings. -/
def containsChars (n : List Char) : List Char → Bool
  | [] => n.isEmpty
  | c :: rest => startsWithChars n (c :: rest) || containsChars n rest

/-- Python `needle in hay` for strings. -/
def pyInB (needle hay : String) : Bool :=
  containsChars needle.data hay.data

/-- Python `s.split(sep)` over character lists (leftmost, non-overlapping,
`sep` nonempty at every call site).  Structured with explicit fuel so the
recursion is structural (the kernel can evaluate it); the fuel is the input
length, which the recursion never exhausts since each step consumes at least
one character. -/
def splitOnCharsFuel (sep : List Char) : Nat → List Char → List (List Char)
  | _, [] => [[]]
  | 0, l => [l]
  | fuel + 1, c :: rest =>
    if 0 < sep.length && startsWithChars sep (c :: rest) then
      [] :: splitOnCharsFuel sep fuel (List.drop (sep.length - 1) rest)
    else
      match splitOnCharsFuel sep fuel rest with
      | [] => [[c]]
      | s :: ss => (c :: s) :: ss

def splitOnChars (sep l : List Char) : List (List Char) :=
  splitOnCharsFuel sep l.length l

/-- Python `s.split(sep)` for strings. -/
def pySplit (s sep : String) : List String :=
  (splitOnChars sep.data s.data).map (fun l => String.mk l)

/-- Python whitespace for `str.strip()`. -/
def pySpaceB (c : Char) : Bool :=
  c == ' ' || c == '\t' || c == '\n' || c == '\r'

/-- Python `s.strip()`. -/
def pyStrip (s : String) : String :=
  String.mk (((s.data.dropWhile pySpaceB).reverse.dropWhile pySpaceB).reverse)

/-! ## app.py `standardize_department_name` (lines 800-815) and
`extract_khcc_department` (lines 817-848) -/

/-- app.py `standardize_department_name`: a falsy input yields `None`;
otherwise synonym groups are merged by substring tests, in order. -/
def standardize_department_name (dept_name : Option String) : Option String :=
  match dept_name with
  | none => none
  | some d =>
    if d = "" then none
    else if pyInB "Medical Oncology" d || pyInB "Internal Medicine" d ||
            pyInB "Medicine" d then
      some "Department of Internal Medicine"
    else if pyInB "Diagnostic Radiology" d || pyInB "Radiology" d then
      some "Department of Diagnostic Radiology"
    else if pyInB "Pediatrics" d || pyInB "Pediatric Oncology" d then
      some "Department of Pediatrics"
    else some d

/-- The ordered department-indicator phrases of `extract_khcc_department`. -/
def deptPhrases : List String :=
  ["Department of", "Departments of", "Division of", "Divisions of",
   "Section of", "Sections of"]

/-- The `for pattern in dept_patterns` loop of `extract_khcc_department`:
first phrase found in the raw string wins; the text after the phrase is cut at
the first comma and at "King Hussein", stripped, and (when nonempty) prefixed
with the phrase and standardized.  On failure the loop continues. -/
def tryDeptPhrases (phrases : List String) (raw : String) : Option String :=
  match phrases with
  | [] => none
  | pat :: rest =>
    if pyInB pat raw then
      let parts := pySplit raw pat
      if 1 < parts.length then
        let p1 := (parts.get? 1).getD ""
        let dept_text :=
          pyStrip ((pySplit ((pySplit p1 ",").headD "") "King Hussein").headD "")
        if dept_text ≠ "" then
          standardize_department_name (some (pat ++ " " ++ dept_text))
        else tryDeptPhrases rest raw
      else tryDeptPhrases rest raw
    else tryDeptPhrases rest raw

/-- app.py `extract_khcc_department`: `None` unless the raw affiliation string
mentions the home institution name, else the phrase loop. -/
def extract_khcc_department (raw : String) : Option String :=
  if pyInB khccName raw = false then none
  else tryDeptPhrases deptPhrases raw

/-! ## Claim C9 -/

/-- C9: department-name canonicalization (`standardize_department_name`) is
idempotent: applying it to its own output returns that output unchanged. -/
theorem spec_c9_standardize_idempotent (d : Option String) :
    standardize_department_name (standardize_department_name d) =
      standardize_department_name d := by
  match d with
  | none => rfl
  | some s =>
    by_cases h0 : s = ""
    · subst h0; rfl
    · by_cases h1 : (pyInB "Medical Oncology" s || pyInB "Internal Medicine" s ||
          pyInB "Medicine" s) = true
      · have e1 : standardize_department_name (some s) =
            some "Department of Internal Medicine" := by
          simp only [standardize_department_name, if_neg h0, if_pos h1]
        rw [e1]
        decide
      · by_cases h2 : (pyInB "Diagnostic Radiology" s || pyInB "Radiology" s) = true
        · have e2 : standardize_department_name (some s) =
              some "Department of Diagnostic Radiology" := by
            simp only [standardize_department_name, if_neg h0, if_neg h1, if_pos h2]
          rw [e2]
          decide
        · by_cases h3 : (pyInB "Pediatrics" s || pyInB "Pediatric Oncology" s) = true
          · have e3 : standardize_department_name (some s) =
                some "Department of Pediatrics" := by
              simp only [standardize_department_name, if_neg h0, if_neg h1,
                if_neg h2, if_pos h3]
            rw [e3]
            decide
          · have e4 : standardize_department_name (some s) = some s := by
              simp only [standardize_department_name, if_neg h0, if_neg h1,
                if_neg h2, if_neg h3]
            rw [e4]
            exact e4

/-! ## Claim C10 -/

/-- C10: for every raw affiliation string that does not contain the exact
substring "King Hussein Cancer Center", `extract_khcc_department` returns no
department, even if the string contains a department-indicator phrase. -/
theorem spec_c10_no_home_name_no_department (raw : String)
    (h : pyInB khccName raw = false) :
    extract_khcc_department raw = none := by
  simp only [extract_khcc_department, h]
  exact rfl

theorem spec_c10_no_home_name_no_department_witness :
    pyInB khccName "Department of Surgery, General Hospital, Amman" = false ∧
    extract_khcc_department "Department of Surgery, General Hospital, Amman" = none :=
  ⟨by decide, spec_c10_no_home_name_no_department _ (by decide)⟩

/-! ## Sets and Counters

Python `set` insertion / `Counter` key order is modelled as first-occurrence
de-duplication; counts are occurrence counts.  All claims proved below are
independent of the iteration order of a Python set. -/

/-- Occurrences of `x` in a list (the count a Python `Counter` assigns). -/
def countOcc {α : Type} [DecidableEq α] (x : α) : List α → Nat
  | [] => 0
  | y :: ys => (if y = x then 1 else 0) + countOcc x ys

/-- First-occurrence de-duplication (auxiliary, carrying the set of already
seen elements): the elements of a Python `set` built by insertion, in
insertion order. -/
def firstOccsAux {α : Type} [DecidableEq α] (seen : List α) : List α → List α
  | [] => []
  | x :: xs =>
    if x ∈ seen then firstOccsAux seen xs
    else x :: firstOccsAux (x :: seen) xs

def firstOccs {α : Type} [DecidableEq α] (l : List α) : List α :=
  firstOccsAux [] l

theorem mem_firstOccsAux {α : Type} [DecidableEq α] {a : α} :
    ∀ {l seen : List α}, a ∈ firstOccsAux seen l ↔ a ∈ l ∧ a ∉ seen := by
  intro l
  induction l with
  | nil => simp [firstOccsAux]
  | cons x xs ih =>
    intro seen
    simp only [firstOccsAux]
    by_cases hx : x ∈ seen
    · rw [if_pos hx, ih]
      constructor
      · rintro ⟨h1, h2⟩
        exact ⟨List.mem_cons_of_mem x h1, h2⟩
      · rintro ⟨h1, h2⟩
        rcases List.mem_cons.mp h1 with h1 | h1
        · exact absurd (h1 ▸ hx) h2
        · exact ⟨h1, h2⟩
    · rw [if_neg hx]
      simp only [List.mem_cons, ih, List.mem_cons]
      constructor
      · rintro (rfl | ⟨h1, h2⟩)
        · exact ⟨Or.inl rfl, hx⟩
        · exact ⟨Or.inr h1, fun hs => h2 (Or.inr hs)⟩
      · rintro ⟨rfl | h1, h2⟩
        · exact Or.inl rfl
        · by_cases hax : a = x
          · exact Or.inl hax
          · exact Or.inr ⟨h1, fun hs => (hs.elim hax h2).elim⟩

theorem mem_firstOccs {α : Type} [DecidableEq α] {a : α} {l : List α} :
    a ∈ firstOccs l ↔ a ∈ l := by
  unfold firstOccs
  rw [mem_firstOccsAux]
  simp

theorem countOcc_eq_zero {α : Type} [DecidableEq α] {a : α} {l : List α}
    (h : a ∉ l) : countOcc a l = 0 := by
  induction l with
  | nil => rfl
  | cons y ys ih =>
    simp only [List.mem_cons, not_or] at h
    have hya : y ≠ a := fun hy => h.1 hy.symm
    simp [countOcc, hya, ih h.2]

theorem countOcc_firstOccsAux {α : Type} [DecidableEq α] (a : α) :
    ∀ (l seen : List α),
      countOcc a (firstOccsAux seen l) = if a ∈ l ∧ a ∉ seen then 1 else 0 := by
  intro l
  induction l with
  | nil => simp [firstOccsAux, countOcc]
  | cons x xs ih =>
    intro seen
    simp only [firstOccsAux]
    by_cases hx : x ∈ seen
    · rw [if_pos hx, ih]
      by_cases hax : a = x
      · subst hax
        simp [hx]
      · simp only [List.mem_cons]
        have : (a = x ∨ a ∈ xs) ∧ a ∉ seen ↔ a ∈ xs ∧ a ∉ seen := by
          constructor
          · rintro ⟨rfl | h1, h2⟩
            · exact absurd hx h2
            · exact ⟨h1, h2⟩
          · rintro ⟨h1, h2⟩
            exact ⟨Or.inr h1, h2⟩
        rw [if_congr this rfl rfl]
    · rw [if_neg hx]
      simp only [countOcc, ih]
      by_cases hax : a = x
      · subst hax
        have hnm : ¬ (a ∈ xs ∧ a ∉ a :: seen) := by
          rintro ⟨_, h2⟩
          exact h2 (List.mem_cons_self a seen)
        simp [hnm, hx]
      · have hxa : x ≠ a := fun h => hax h.symm
        rw [if_neg hxa]
        have : a ∈ xs ∧ a ∉ x :: seen ↔ a ∈ xs ∧ a ∉ seen := by
          constructor
          · rintro ⟨h1, h2⟩
            exact ⟨h1, fun hs => h2 (List.mem_cons_of_mem x hs)⟩
          · rintro ⟨h1, h2⟩
            refine ⟨h1, fun hs => ?_⟩
            rcases List.mem_cons.mp hs with hs | hs
            · exact hax hs
            · exact h2 hs
        rw [if_congr this rfl rfl]
        have hmc : a ∈ x :: xs ↔ a ∈ xs := by
          simp [List.mem_cons, hax]
        rw [if_congr (and_congr hmc Iff.rfl) rfl rfl]
        omega

theorem countOcc_firstOccs {α : Type} [DecidableEq α] (a : α) (l : List α) :
    countOcc a (firstOccs l) = if a ∈ l then 1 else 0 := by
  unfold firstOccs
  rw [countOcc_firstOccsAux]
  simp

theorem countOcc_append {α : Type} [DecidableEq α] (a : α) (l1 l2 : List α) :
    countOcc a (l1 ++ l2) = countOcc a l1 + countOcc a l2 := by
  induction l1 with
  | nil => simp [countOcc]
  | cons y ys ih =>
    show countOcc a (y :: (ys ++ l2)) = countOcc a (y :: ys) + countOcc a l2
    simp only [countOcc, ih]
    omega

/-! ## app.py `create_department_charts` (lines 850-963) aggregation core -/

/-- Python `<` on strings: lexicographic by code point. -/
def ltChars : List Char → List Char → Bool
  | _, [] => false
  | [], _ :: _ => true
  | a :: as, b :: bs =>
    if a.toNat < b.toNat then true
    else if b.toNat < a.toNat then false
    else ltChars as bs

def pyStrLt (s1 s2 : String) : Bool :=
  ltChars s1.data s2.data

/-- Python `tuple(sorted([d1, d2]))` on two strings. -/
def sortPair (d1 d2 : String) : String × String :=
  if pyStrLt d2 d1 then (d2, d1) else (d1, d2)

/-- The department-pair loop: `for i, dept1 ...: for dept2 in paper_depts[i+1:]:
if dept1 != dept2: append(tuple(sorted([dept1, dept2])))`. -/
def pairsOf : List String → List (String × String)
  | [] => []
  | d1 :: rest =>
    ((rest.filter (fun d2 => decide (d2 ≠ d1))).map (fun d2 => sortPair d1 d2)) ++
      pairsOf rest

/-- The per-paper department collection of `create_department_charts`:
for each KHCC author (by institution id), every raw affiliation string's
extracted department, in order. -/
def paperDeptList : List Authorship → List String
  | [] => []
  | a :: rest =>
    (if isKhccIdB a then
      (a.raw_affiliation_strings.getD []).filterMap extract_khcc_department
     else []) ++ paperDeptList rest

/-- The aggregation core of `create_department_charts`: over the non-null
rows, decode the authorships JSON (unguarded `json.loads`), collect the
per-paper department set, and accumulate the department multiset
(`dept_counts`) and the sorted collaboration pairs (`dept_collaborations`). -/
def deptChartsCore : List (Option AuthorshipsVal) →
    Except PyErr (List String × List (String × String))
  | [] => Except.ok ([], [])
  | none :: rest => deptChartsCore rest
  | some v :: rest => do
    let auths ← decodeAuthorshipsVal v
    let pd := firstOccs (paperDeptList auths)
    let (ds, cs) ← deptChartsCore rest
    Except.ok (pd ++ ds, pairsOf pd ++ cs)

/-! ## Claim C8 -/

/-- A KHCC author entry whose raw affiliation strings name the departments of
Internal Medicine and Diagnostic Radiology. -/
def c8KhccAuthor : Authorship :=
  { author := some { display_name := some "K" }
    institutions := some [{ id := some khccId, display_name := some khccName,
                            country_code := some "JO" }]
    countries := some ["JO"]
    raw_affiliation_strings := some
      ["Department of Internal Medicine, King Hussein Cancer Center, Amman, Jordan",
       "Department of Diagnostic Radiology, King Hussein Cancer Center, Amman, Jordan"] }

/-- Two publications, each yielding both departments. -/
def c8Papers : List (Option AuthorshipsVal) :=
  [some (AuthorshipsVal.struct [c8KhccAuthor]),
   some (AuthorshipsVal.struct [c8KhccAuthor])]

/-- C8: for two publications each yielding "Department of Internal Medicine"
and "Department of Diagnostic Radiology", `create_department_charts` counts
the unordered department pair 2 times, not 4: within one publication the pair
is produced once, with (A,B) and (B,A) identified by sorting before counting. -/
theorem spec_c8_dept_pair_counted_once_per_paper :
    deptChartsCore c8Papers = Except.ok
      (["Department of Internal Medicine", "Department of Diagnostic Radiology",
        "Department of Internal Medicine", "Department of Diagnostic Radiology"],
       [("Department of Diagnostic Radiology", "Department of Internal Medicine"),
        ("Department of Diagnostic Radiology", "Department of Internal Medicine")]) ∧
    countOcc ("Department of Diagnostic Radiology", "Department of Internal Medicine")
      [("Department of Diagnostic Radiology", "Department of Internal Medicine"),
       ("Department of Diagnostic Radiology", "Department of Internal Medicine")] = 2 :=
  ⟨rfl, rfl⟩

/-! ## app.py `extract_institutions_and_countries` (lines 351-374) and
`extract_external_authors` (lines 376-396) -/

/-- The institution loop of `extract_institutions_and_countries`: reading
`inst['display_name']` directly, stop (collecting nothing more) at the first
KHCC name, and collect every display name seen before it. -/
def instScanNameCollect : List Institution → Except PyErr (Bool × List String)
  | [] => Except.ok (false, [])
  | inst :: rest => do
    let dn ← pyGet inst.display_name
    if dn = khccName then Except.ok (true, [])
    else do
      let (b, l) ← instScanNameCollect rest
      Except.ok (b, dn :: l)

/-- The authorship loop of `extract_institutions_and_countries`: institutions
collected while scanning for KHCC, countries (from the authorship's
`countries` key) only for non-KHCC entries. -/
def instCtryLoop : List Authorship → Except PyErr (List String × List String)
  | [] => Except.ok ([], [])
  | a :: rest => do
    let (isK, insts) ← match a.institutions with
      | some l => instScanNameCollect l
      | none => Except.ok (false, [])
    let ctrs := if isK then [] else a.countries.getD []
    let (is', cs') ← instCtryLoop rest
    Except.ok (insts ++ is', ctrs ++ cs')

/-- app.py `extract_institutions_and_countries`. -/
def extract_institutions_and_countries (v : AuthorshipsVal) :
    Except PyErr (List String × List String) := do
  let auths ← decodeAuthorshipsVal v
  instCtryLoop auths

/-- The authorship loop of `extract_external_authors`: KHCC test by
display-name scan, non-KHCC entries with an `author` key contribute
`authorship['author']['display_name']`. -/
def extExternalLoop : List Authorship → Except PyErr (List String)
  | [] => Except.ok []
  | a :: rest => do
    let isK ← match a.institutions with
      | some l => scanInstsKhccName l
      | none => Except.ok false
    if isK then extExternalLoop rest
    else
      match a.author with
      | some au => do
        let nm ← pyGet au.display_name
        let r ← extExternalLoop rest
        Except.ok (nm :: r)
      | none => extExternalLoop rest

/-- app.py `extract_external_authors`. -/
def extract_external_authors (v : AuthorshipsVal) : Except PyErr (List String) := do
  let auths ← decodeAuthorshipsVal v
  extExternalLoop auths

/-! ## app.py `create_frequency_charts` (lines 398-494) aggregation core -/

/-- The aggregation loop of `create_frequency_charts`: over non-null rows,
extend the institution / country / external-author multisets with each row's
extraction output (no per-publication de-duplication), filtering the KHCC
name out of institutions when `exclude_khcc` is set. -/
def create_frequency_charts_core (exclude_khcc : Bool) :
    List (Option AuthorshipsVal) →
    Except PyErr (List String × List String × List String)
  | [] => Except.ok ([], [], [])
  | none :: rest => create_frequency_charts_core exclude_khcc rest
  | some v :: rest => do
    let (insts, ctrs) ← extract_institutions_and_countries v
    let exts ← extract_external_authors v
    let insts' := if exclude_khcc then insts.filter (fun i => i != khccName) else insts
    let (ai, ac, ae) ← create_frequency_charts_core exclude_khcc rest
    Except.ok (insts' ++ ai, ctrs ++ ac, exts ++ ae)

/-! ## step_app.py `extract_collaborations_from_papers` (lines 271-331) -/

/-- The per-paper entry loop: for each non-KHCC entry (display-name `.get`
test over `authorship.get('institutions', [])`), collect every institution's
truthy display name other than the KHCC name, and every truthy country code
(from the institution's `country_code`). -/
def stepExtInstsCtrs : List Authorship → List String × List String
  | [] => ([], [])
  | a :: rest =>
    let insts := a.institutions.getD []
    let isK := insts.any (fun i => i.display_name == some khccName)
    let (is', cs') := stepExtInstsCtrs rest
    if isK then (is', cs')
    else
      let names := insts.filterMap (fun i =>
        match i.display_name with
        | some n => if n != "" && n != khccName then some n else none
        | none => none)
      let ctrs := insts.filterMap (fun i =>
        match i.country_code with
        | some c => if c != "" then some c else none
        | none => none)
      (names ++ is', ctrs ++ cs')

/-- step_app.py `extract_collaborations_from_papers` aggregation: per paper,
each distinct institution / country (a Python `set`) contributes one unit;
the groupby-sum totals are the occurrence counts of the flattened per-paper
sets.  A non-list falsy `authorships` value is treated as the empty list; a
row whose JSON fails to decode is skipped (`except: continue`). -/
def step_collab_core : List (Option AuthorshipsVal) → List String × List String
  | [] => ([], [])
  | row :: rest =>
    let r := step_collab_core rest
    match row with
    | none =>
      let (is, cs) := stepExtInstsCtrs []
      (firstOccs is ++ r.1, firstOccs cs ++ r.2)
    | some (AuthorshipsVal.struct l) =>
      let (is, cs) := stepExtInstsCtrs l
      (firstOccs is ++ r.1, firstOccs cs ++ r.2)
    | some (AuthorshipsVal.text (some l)) =>
      let (is, cs) := stepExtInstsCtrs l
      (firstOccs is ++ r.1, firstOccs cs ++ r.2)
    | some (AuthorshipsVal.text none) => r

/-! ## Claim C3 -/

/-- Number of publications (rows) whose department set contains `d`, under the
row handling of `create_department_charts` (spec-side reference count). -/
def countPapersWithDept : List (Option AuthorshipsVal) → String → Nat
  | [], _ => 0
  | none :: rest, d => countPapersWithDept rest d
  | some v :: rest, d =>
    (match decodeAuthorshipsVal v with
     | Except.ok auths => if d ∈ paperDeptList auths then 1 else 0
     | Except.error _ => 0) + countPapersWithDept rest d

/-- Number of publications whose external-institution collection contains `i`,
under the row handling of `extract_collaborations_from_papers` (spec-side
reference count). -/
def countPapersWithInst : List (Option AuthorshipsVal) → String → Nat
  | [], _ => 0
  | row :: rest, i =>
    (match row with
     | none => 0
     | some (AuthorshipsVal.struct l) => if i ∈ (stepExtInstsCtrs l).1 then 1 else 0
     | some (AuthorshipsVal.text (some l)) => if i ∈ (stepExtInstsCtrs l).1 then 1 else 0
     | some (AuthorshipsVal.text none) => 0) + countPapersWithInst rest i

/-- Number of publications whose external-country collection contains `c`,
under the row handling of `extract_collaborations_from_papers` (spec-side
reference count). -/
def countPapersWithCtry : List (Option AuthorshipsVal) → String → Nat
  | [], _ => 0
  | row :: rest, c =>
    (match row with
     | none => 0
     | some (AuthorshipsVal.struct l) => if c ∈ (stepExtInstsCtrs l).2 then 1 else 0
     | some (AuthorshipsVal.text (some l)) => if c ∈ (stepExtInstsCtrs l).2 then 1 else 0
     | some (AuthorshipsVal.text none) => 0) + countPapersWithCtry rest c

/-- One publication with two distinct external authors affiliated with the
same external institution "Foreign U". -/
def c3ExtAuthor1 : Authorship :=
  { author := some { display_name := some "E1" }
    institutions := some [{ id := some "https://openalex.org/I1",
                            display_name := some "Foreign U",
                            country_code := some "US" }]
    countries := some ["US"]
    raw_affiliation_strings := none }

def c3ExtAuthor2 : Authorship :=
  { author := some { display_name := some "E2" }
    institutions := some [{ id := some "https://openalex.org/I1",
                            display_name := some "Foreign U",
                            country_code := some "US" }]
    countries := some ["US"]
    raw_affiliation_strings := none }

def c3Papers : List (Option AuthorshipsVal) :=
  [some (AuthorshipsVal.struct [c3ExtAuthor1, c3ExtAuthor2])]

/-- C3 counterexample: in app.py `create_frequency_charts`, the frequency
count of the institution "Foreign U" over a one-publication table that
mentions it twice is 2, although it appears in only 1 distinct publication:
the claimed per-publication de-duplicated set is absent on this path. -/
theorem spec_c3_counterexample_freq_counts_mentions :
    create_frequency_charts_core true c3Papers =
      Except.ok (["Foreign U", "Foreign U"], ["US", "US"], ["E1", "E2"]) ∧
    countOcc "Foreign U" ["Foreign U", "Foreign U"] = 2 ∧
    c3Papers.length = 1 :=
  ⟨rfl, rfl, rfl⟩

/-- C3 amended: the department counts of `create_department_charts` and the
institution / country collaboration counts of step_app.py
`extract_collaborations_from_papers` count one per distinct publication via a
per-publication de-duplicated set; the author / institution / country counts
of app.py `create_frequency_charts` instead count every mention. -/
theorem spec_c3_per_paper_dedup_counts :
    (∀ (papers : List (Option AuthorshipsVal)) (ds : List String)
       (cs : List (String × String)),
      deptChartsCore papers = Except.ok (ds, cs) →
      ∀ d, countOcc d ds = countPapersWithDept papers d) ∧
    (∀ (papers : List (Option AuthorshipsVal)) (i : String),
      countOcc i (step_collab_core papers).1 = countPapersWithInst papers i) ∧
    (∀ (papers : List (Option AuthorshipsVal)) (c : String),
      countOcc c (step_collab_core papers).2 = countPapersWithCtry papers c) := by
  refine ⟨?_, ?_, ?_⟩
  · intro papers
    induction papers with
    | nil =>
      intro ds cs h d
      simp only [deptChartsCore] at h
      cases h
      rfl
    | cons row rest ih =>
      intro ds cs h d
      match row with
      | none =>
        simp only [deptChartsCore] at h
        simp only [countPapersWithDept]
        exact ih ds cs h d
      | some v =>
        simp only [deptChartsCore] at h
        cases hv : decodeAuthorshipsVal v with
        | error e =>
          rw [hv, exceptBind_err] at h
          exact absurd h (by simp)
        | ok auths =>
          rw [hv, exceptBind_ok] at h
          cases hr : deptChartsCore rest with
          | error e => rw [hr, exceptBind_err] at h; exact absurd h (by simp)
          | ok pr =>
            obtain ⟨ds', cs'⟩ := pr
            rw [hr, exceptBind_ok] at h
            cases h
            simp only [countPapersWithDept, hv]
            rw [countOcc_append, countOcc_firstOccs, ih ds' cs' hr d]
  · intro papers i
    induction papers with
    | nil => rfl
    | cons row rest ih =>
      match row with
      | none =>
        simp only [step_collab_core, stepExtInstsCtrs, firstOccs, firstOccsAux,
          countPapersWithInst, List.nil_append, Nat.zero_add]
        exact ih
      | some (AuthorshipsVal.struct l) =>
        simp only [step_collab_core, countPapersWithInst]
        rw [countOcc_append, countOcc_firstOccs, ih]
      | some (AuthorshipsVal.text (some l)) =>
        simp only [step_collab_core, countPapersWithInst]
        rw [countOcc_append, countOcc_firstOccs, ih]
      | some (AuthorshipsVal.text none) =>
        simp only [step_collab_core, countPapersWithInst, Nat.zero_add]
        exact ih
  · intro papers c
    induction papers with
    | nil => rfl
    | cons row rest ih =>
      match row with
      | none =>
        simp only [step_collab_core, stepExtInstsCtrs, firstOccs, firstOccsAux,
          countPapersWithCtry, List.nil_append, Nat.zero_add]
        exact ih
      | some (AuthorshipsVal.struct l) =>
        simp only [step_collab_core, countPapersWithCtry]
        rw [countOcc_append, countOcc_firstOccs, ih]
      | some (AuthorshipsVal.text (some l)) =>
        simp only [step_collab_core, countPapersWithCtry]
        rw [countOcc_append, countOcc_firstOccs, ih]
      | some (AuthorshipsVal.text none) =>
        simp only [step_collab_core, countPapersWithCtry, Nat.zero_add]
        exact ih

/-- One-publication table for the C3 witness. -/
def c3DeptPapers : List (Option AuthorshipsVal) :=
  [some (AuthorshipsVal.struct [c8KhccAuthor])]

theorem spec_c3_per_paper_dedup_counts_witness :
    (countOcc "Department of Internal Medicine"
        ["Department of Internal Medicine", "Department of Diagnostic Radiology"] =
      countPapersWithDept c3DeptPapers "Department of Internal Medicine") ∧
    (countOcc "Foreign U" (step_collab_core c3Papers).1 =
      countPapersWithInst c3Papers "Foreign U") ∧
    (countOcc "US" (step_collab_core c3Papers).2 =
      countPapersWithCtry c3Papers "US") :=
  ⟨spec_c3_per_paper_dedup_counts.1 c3DeptPapers
      ["Department of Internal Medicine", "Department of Diagnostic Radiology"]
      [("Department of Diagnostic Radiology", "Department of Internal Medicine")]
      rfl "Department of Internal Medicine",
   spec_c3_per_paper_dedup_counts.2.1 c3Papers "Foreign U",
   spec_c3_per_paper_dedup_counts.2.2 c3Papers "US"⟩

/-! ## app.py `extract_khcc_institution_country_links` (lines 635-671) -/

/-- First pass: KHCC authors by institution id; `author_name` is read by
direct subscripts before the institution scan. -/
def icFirstPass : List Authorship → Except PyErr (List String)
  | [] => Except.ok []
  | a :: rest => do
    let au ← pyGet a.author
    let nm ← pyGet au.display_name
    let r ← icFirstPass rest
    if isKhccIdB a then Except.ok (nm :: r) else Except.ok r

/-- Institution loop of the second pass: every institution whose id differs
from the KHCC id contributes one (khcc_author, display_name) pair per KHCC
author (`inst['display_name']` read directly). -/
def collectInstPairs (ks : List String) : List Institution →
    Except PyErr (List (String × String))
  | [] => Except.ok []
  | i :: rest =>
    if i.id == some khccId then collectInstPairs ks rest
    else do
      let dn ← pyGet i.display_name
      let r ← collectInstPairs ks rest
      Except.ok (ks.map (fun k => (k, dn)) ++ r)

/-- Second pass: entries whose author name is not among the KHCC author names
contribute institution pairs (id-filtered) and country pairs (from the
authorship's `countries` key). -/
def icSecondPass (ks : List String) : List Authorship →
    Except PyErr (List (String × String) × List (String × String))
  | [] => Except.ok ([], [])
  | a :: rest => do
    let au ← pyGet a.author
    let nm ← pyGet au.display_name
    if nm ∈ ks then icSecondPass ks rest
    else do
      let ip ← match a.institutions with
        | some l => collectInstPairs ks l
        | none => Except.ok []
      let cp := ((a.countries.getD []).map (fun c => ks.map (fun k => (k, c)))).flatten
      let (ip', cp') ← icSecondPass ks rest
      Except.ok (ip ++ ip', cp ++ cp')

/-- app.py `extract_khcc_institution_country_links`. -/
def extract_khcc_institution_country_links (v : AuthorshipsVal) :
    Except PyErr (List String × List (String × String) × List (String × String)) := do
  let auths ← decodeAuthorshipsVal v
  let ks ← icFirstPass auths
  let (ip, cp) ← icSecondPass ks auths
  Except.ok (ks, ip, cp)

/-! ## Claim C7 -/

/-- An entry carrying the home institution's display name but no institution
id: the id-based exclusion of `extract_khcc_institution_country_links` does
not recognise it as the home institution. -/
def c7HomeNamedNoId : Authorship :=
  { author := some { display_name := some "E" }
    institutions := some [{ id := none,
                            display_name := some "King Hussein Cancer Center",
                            country_code := none }]
    countries := none
    raw_affiliation_strings := none }

/-- C7 counterexample: with one KHCC author (by id) and one author whose sole
institution is named "King Hussein Cancer Center" but carries no id,
`extract_khcc_institution_country_links` emits the home institution's name as
an external collaborating institution. -/
theorem spec_c7_counterexample_home_name_emitted :
    extract_khcc_institution_country_links
        (AuthorshipsVal.struct [c1HomeEntry, c7HomeNamedNoId]) =
      Except.ok (["K"], [("K", "King Hussein Cancer Center")], []) ∧
    "King Hussein Cancer Center" ∈
      ([("K", "King Hussein Cancer Center")].map Prod.snd) :=
  ⟨rfl, by decide⟩

theorem instScanNameCollect_no_khcc {l : List Institution} {b : Bool}
    {names : List String} (h : instScanNameCollect l = Except.ok (b, names)) :
    khccName ∉ names := by
  induction l generalizing b names with
  | nil =>
    simp only [instScanNameCollect] at h
    cases h
    simp
  | cons i rest ih =>
    simp only [instScanNameCollect] at h
    cases hd : i.display_name with
    | none => rw [hd] at h; exact absurd h (by simp [pyGet, exceptBind_err])
    | some dn =>
      rw [hd] at h
      simp only [pyGet, exceptBind_ok] at h
      by_cases hk : dn = khccName
      · rw [if_pos hk] at h
        cases h
        simp
      · rw [if_neg hk] at h
        cases hr : instScanNameCollect rest with
        | error e => rw [hr, exceptBind_err] at h; exact absurd h (by simp)
        | ok pr =>
          obtain ⟨b', names'⟩ := pr
          rw [hr, exceptBind_ok] at h
          cases h
          intro hmem
          rcases List.mem_cons.mp hmem with hmem | hmem
          · exact hk hmem.symm
          · exact ih hr hmem

theorem instCtryLoop_no_khcc {auths : List Authorship} {is cs : List String}
    (h : instCtryLoop auths = Except.ok (is, cs)) : khccName ∉ is := by
  induction auths generalizing is cs with
  | nil =>
    simp only [instCtryLoop] at h
    cases h
    simp
  | cons a rest ih =>
    simp only [instCtryLoop] at h
    cases hai : a.institutions with
    | none =>
      simp only [hai, exceptBind_ok] at h
      cases hr : instCtryLoop rest with
      | error e => rw [hr, exceptBind_err] at h; exact absurd h (by simp)
      | ok pr' =>
        obtain ⟨is', cs'⟩ := pr'
        rw [hr, exceptBind_ok] at h
        cases h
        intro hmem
        rcases List.mem_append.mp hmem with hmem | hmem
        · simp at hmem
        · exact ih hr hmem
    | some l =>
      simp only [hai] at h
      cases hs : instScanNameCollect l with
      | error e => rw [hs, exceptBind_err] at h; exact absurd h (by simp)
      | ok pr =>
        obtain ⟨isK, insts⟩ := pr
        rw [hs, exceptBind_ok] at h
        cases hr : instCtryLoop rest with
        | error e => rw [hr, exceptBind_err] at h; exact absurd h (by simp)
        | ok pr' =>
          obtain ⟨is', cs'⟩ := pr'
          rw [hr, exceptBind_ok] at h
          cases h
          intro hmem
          rcases List.mem_append.mp hmem with hmem | hmem
          · exact instScanNameCollect_no_khcc hs hmem
          · exact ih hr hmem

theorem collectInstPairs_sound {ks : List String} {l : List Institution}
    {ip : List (String × String)} (h : collectInstPairs ks l = Except.ok ip) :
    ∀ p ∈ ip, ∃ i ∈ l, i.id ≠ some khccId ∧ i.display_name = some p.2 := by
  induction l generalizing ip with
  | nil =>
    simp only [collectInstPairs] at h
    cases h
    simp
  | cons i rest ih =>
    simp only [collectInstPairs] at h
    by_cases hid : (i.id == some khccId) = true
    · rw [if_pos hid] at h
      intro p hp
      obtain ⟨i', hi', h1, h2⟩ := ih h p hp
      exact ⟨i', List.mem_cons_of_mem i hi', h1, h2⟩
    · rw [if_neg hid] at h
      cases hd : i.display_name with
      | none => rw [hd] at h; exact absurd h (by simp [pyGet, exceptBind_err])
      | some dn =>
        rw [hd] at h
        simp only [pyGet, exceptBind_ok] at h
        cases hr : collectInstPairs ks rest with
        | error e => rw [hr, exceptBind_err] at h; exact absurd h (by simp)
        | ok ip' =>
          rw [hr, exceptBind_ok] at h
          cases h
          intro p hp
          rcases List.mem_append.mp hp with hp | hp
          · obtain ⟨k, _, hkp⟩ := List.mem_map.mp hp
            refine ⟨i, List.mem_cons_self i rest, ?_, ?_⟩
            · intro hidq
              exact hid (beq_iff_eq.mpr hidq)
            · rw [hd, ← hkp]
          · obtain ⟨i', hi', h1, h2⟩ := ih hr p hp
            exact ⟨i', List.mem_cons_of_mem i hi', h1, h2⟩

theorem icSecondPass_inst_sound {ks : List String} {auths : List Authorship}
    {ip cp : List (String × String)}
    (h : icSecondPass ks auths = Except.ok (ip, cp)) :
    ∀ p ∈ ip, ∃ a ∈ auths, ∃ i ∈ a.institutions.getD [],
      i.id ≠ some khccId ∧ i.display_name = some p.2 := by
  induction auths generalizing ip cp with
  | nil =>
    simp only [icSecondPass] at h
    cases h
    simp
  | cons a rest ih =>
    simp only [icSecondPass] at h
    cases hau : a.author with
    | none => rw [hau] at h; exact absurd h (by simp [pyGet, exceptBind_err])
    | some au =>
      rw [hau] at h
      simp only [pyGet, exceptBind_ok] at h
      cases hdn : au.display_name with
      | none => rw [hdn] at h; exact absurd h (by simp [pyGet, exceptBind_err])
      | some nm =>
        rw [hdn] at h
        simp only [pyGet, exceptBind_ok] at h
        by_cases hin : nm ∈ ks
        · rw [if_pos hin] at h
          intro p hp
          obtain ⟨a', ha', rest'⟩ := ih h p hp
          exact ⟨a', List.mem_cons_of_mem a ha', rest'⟩
        · rw [if_neg hin] at h
          cases hai : a.institutions with
          | none =>
            simp only [hai] at h
            cases hr : icSecondPass ks rest with
            | error e => rw [hr, exceptBind_err] at h; exact absurd h (by simp)
            | ok pr =>
              obtain ⟨ip', cp'⟩ := pr
              rw [hr, exceptBind_ok] at h
              cases h
              intro p hp
              rcases List.mem_append.mp hp with hp | hp
              · simp at hp
              · obtain ⟨a', ha', rest'⟩ := ih hr p hp
                exact ⟨a', List.mem_cons_of_mem a ha', rest'⟩
          | some l =>
            simp only [hai] at h
            cases hcoll : collectInstPairs ks l with
            | error e => rw [hcoll, exceptBind_err] at h; exact absurd h (by simp)
            | ok ipa =>
              rw [hcoll, exceptBind_ok] at h
              cases hr : icSecondPass ks rest with
              | error e => rw [hr, exceptBind_err] at h; exact absurd h (by simp)
              | ok pr =>
                obtain ⟨ip', cp'⟩ := pr
                rw [hr, exceptBind_ok] at h
                cases h
                intro p hp
                rcases List.mem_append.mp hp with hp | hp
                · obtain ⟨i, hi, h1, h2⟩ := collectInstPairs_sound hcoll p hp
                  exact ⟨a, List.mem_cons_self a rest, i, by rw [hai]; exact hi, h1, h2⟩
                · obtain ⟨a', ha', rest'⟩ := ih hr p hp
                  exact ⟨a', List.mem_cons_of_mem a ha', rest'⟩

theorem step_collab_core_no_khcc_names (auths : List Authorship) :
    khccName ∉ (stepExtInstsCtrs auths).1 := by
  induction auths with
  | nil => simp [stepExtInstsCtrs]
  | cons a rest ih =>
    simp only [stepExtInstsCtrs]
    by_cases hk : ((a.institutions.getD []).any
        (fun i => i.display_name == some khccName)) = true
    · rw [if_pos hk]
      exact ih
    · rw [if_neg hk]
      intro hmem
      rcases List.mem_append.mp hmem with hmem | hmem
      · obtain ⟨i, _, hi⟩ := List.mem_filterMap.mp hmem
        cases hd : i.display_name with
        | none => rw [hd] at hi; exact absurd hi (by simp)
        | some n =>
          rw [hd] at hi
          have hi2 : (if (n != "" && n != khccName) = true then some n else none) =
              some khccName := hi
          by_cases hcond : (n != "" && n != khccName) = true
          · rw [if_pos hcond] at hi2
            cases hi2
            have h2 := ((Bool.and_eq_true _ _).mp hcond).2
            simp [bne] at h2
          · rw [if_neg hcond] at hi2
            exact absurd hi2 (by simp)
      · exact ih hmem

/-- C7 amended: each extraction path excludes the home institution only under
its own criterion.  The display-name-based collectors (app.py
`extract_institutions_and_countries`, step_app.py
`extract_collaborations_from_papers`) never emit the home display name, and
the id-based collector (`extract_khcc_institution_country_links`) only emits
institutions whose id differs from the home id; but an entry carrying the
home name without the home id (or the home id under another name) passes the
other path's filter, so the claimed absolute exclusion fails across criteria. -/
theorem spec_c7_home_institution_exclusion_per_criterion :
    (∀ (v : AuthorshipsVal) (is cs : List String),
      extract_institutions_and_countries v = Except.ok (is, cs) →
      khccName ∉ is) ∧
    (∀ (ks : List String) (auths : List Authorship)
       (ip cp : List (String × String)),
      icSecondPass ks auths = Except.ok (ip, cp) →
      ∀ p ∈ ip, ∃ a ∈ auths, ∃ i ∈ a.institutions.getD [],
        i.id ≠ some khccId ∧ i.display_name = some p.2) ∧
    (∀ (papers : List (Option AuthorshipsVal)),
      khccName ∉ (step_collab_core papers).1) := by
  refine ⟨?_, ?_, ?_⟩
  · intro v is cs h
    simp only [extract_institutions_and_countries] at h
    cases hv : decodeAuthorshipsVal v with
    | error e => rw [hv, exceptBind_err] at h; exact absurd h (by simp)
    | ok auths =>
      rw [hv, exceptBind_ok] at h
      exact instCtryLoop_no_khcc h
  · intro ks auths ip cp h
    exact icSecondPass_inst_sound h
  · intro papers
    induction papers with
    | nil => simp [step_collab_core]
    | cons row rest ih =>
      match row with
      | none =>
        simp only [step_collab_core, stepExtInstsCtrs, firstOccs, firstOccsAux,
          List.nil_append]
        exact ih
      | some (AuthorshipsVal.struct l) =>
        simp only [step_collab_core]
        intro hmem
        rcases List.mem_append.mp hmem with hmem | hmem
        · exact step_collab_core_no_khcc_names l (mem_firstOccs.mp hmem)
        · exact ih hmem
      | some (AuthorshipsVal.text (some l)) =>
        simp only [step_collab_core]
        intro hmem
        rcases List.mem_append.mp hmem with hmem | hmem
        · exact step_collab_core_no_khcc_names l (mem_firstOccs.mp hmem)
        · exact ih hmem
      | some (AuthorshipsVal.text none) =>
        simp only [step_collab_core]
        exact ih

theorem spec_c7_home_institution_exclusion_per_criterion_witness :
    (khccName ∉ ["Foreign U"]) ∧
    (∀ p ∈ [("K", "King Hussein Cancer Center")],
      ∃ a ∈ [c1HomeEntry, c7HomeNamedNoId], ∃ i ∈ a.institutions.getD [],
        i.id ≠ some khccId ∧ i.display_name = some p.2) :=
  ⟨spec_c7_home_institution_exclusion_per_criterion.1
      (AuthorshipsVal.struct [c3ExtAuthor1]) ["Foreign U"] ["US"] rfl,
   spec_c7_home_institution_exclusion_per_criterion.2.1
      ["K"] [c1HomeEntry, c7HomeNamedNoId]
      [("K", "King Hussein Cancer Center")] [] rfl⟩

/-! ## Claim C2 -/

/-- The claim's author A: sole institution carries the fixed home-institution
identifier and nothing else. -/
def c2EntryA : Authorship :=
  { author := some { display_name := some "A" }
    institutions := some [{ id := some khccId, display_name := none,
                            country_code := none }]
    countries := none
    raw_affiliation_strings := none }

/-- The claim's author B: sole institution is "Foreign U" with id "X" and
country code "US". -/
def c2EntryB : Authorship :=
  { author := some { display_name := some "B" }
    institutions := some [{ id := some "X", display_name := some "Foreign U",
                            country_code := some "US" }]
    countries := none
    raw_affiliation_strings := none }

def c2Auths : List Authorship := [c2EntryA, c2EntryB]

/-- C2: on the claim's two-entry input, no single code path realises the
claimed behaviour.  The display-name-based pair extractor
(`extract_khcc_and_collaborator_links`) raises `KeyError` reading the missing
`display_name` of A's institution; the id-based sankey path classifies A home
and produces exactly the (A,B) pair; the id-based institution/country path
collects ("A","Foreign U") but no country, because it reads the
authorship-level `countries` key, absent here ("US" sits in the institution's
`country_code`); the step_app display-name test does not classify A as home,
although its collector does gather "Foreign U" and "US". -/
theorem spec_c2_two_author_input_behaviour :
    extract_khcc_and_collaborator_links (AuthorshipsVal.struct c2Auths) =
      Except.error PyErr.keyError ∧
    sankeyPaperPairs c2Auths = Except.ok [("A", "B")] ∧
    extract_khcc_institution_country_links (AuthorshipsVal.struct c2Auths) =
      Except.ok (["A"], [("A", "Foreign U")], []) ∧
    stepIsKhccNameB c2EntryA = false ∧
    step_collab_core [some (AuthorshipsVal.struct c2Auths)] =
      (["Foreign U"], ["US"]) :=
  ⟨rfl, rfl, rfl, rfl, rfl⟩

/-! ## step_app.py `extract_external_authors` (lines 523-538) -/

/-- The entry loop of step_app `extract_external_authors`: display-name `.get`
KHCC test; non-KHCC entries with an `author` key contribute
`a['author'].get('display_name', 'Unknown')`. -/
def stepExtAuthorsLoop : List Authorship → List String
  | [] => []
  | a :: rest =>
    if stepIsKhccNameB a then stepExtAuthorsLoop rest
    else
      match a.author with
      | some au => au.display_name.getD "Unknown" :: stepExtAuthorsLoop rest
      | none => stepExtAuthorsLoop rest

/-- step_app.py `extract_external_authors`: a falsy value yields `[]`; JSON
text that fails to decode yields `[]` (`except: return []`). -/
def step_extract_external_authors (v : Option AuthorshipsVal) : List String :=
  match v with
  | none => []
  | some (AuthorshipsVal.struct l) => stepExtAuthorsLoop l
  | some (AuthorshipsVal.text (some l)) => stepExtAuthorsLoop l
  | some (AuthorshipsVal.text none) => []

/-! ## Claim C5 -/

/-- C5 counterexample: a single row whose authorships JSON fails to decode
makes app.py's aggregation passes raise `ValueError` out of `json.loads`
(`extract_institutions_and_countries` and `create_department_charts` do not
guard the decode), contradicting "the decoding failure is never propagated
as an exception out of the aggregation pass". -/
theorem spec_c5_counterexample_malformed_json_raises :
    create_frequency_charts_core true [some (AuthorshipsVal.text none)] =
      Except.error PyErr.valueError ∧
    deptChartsCore [some (AuthorshipsVal.text none)] =
      Except.error PyErr.valueError ∧
    extract_institutions_and_countries (AuthorshipsVal.text none) =
      Except.error PyErr.valueError :=
  ⟨rfl, rfl, rfl⟩

/-- C5 amended: step_app.py's parsers treat a row whose authorships JSON
fails to decode as contributing nothing, without raising
(`extract_external_authors` returns the empty list; the
`extract_collaborations_from_papers` pass skips the row); app.py's
authorships parsers leave `json.loads` unguarded, so there the failure
propagates (see the counterexample). -/
theorem spec_c5_step_malformed_rows_skipped :
    step_extract_external_authors (some (AuthorshipsVal.text none)) = [] ∧
    (∀ papers, step_collab_core (some (AuthorshipsVal.text none) :: papers) =
      step_collab_core papers) :=
  ⟨rfl, fun _papers => rfl⟩

/-! ## Record loaders: app.py `load_data` (lines 42-96), step_app.py
`load_data` (lines 335-353), and step_app.py
`BibliometricData.get_collaborations` (lines 227-268).

The backing SQL queries are library calls; each is modelled by its contract:
an `Except PyErr rows` value (rows on success, the raised error on failure).
Numeric columns are modelled as `Int` (no floating point is needed by any
claim). -/

structure PaperRowRaw where
  paper_id : Option String
  title : Option String
  journal_name : Option String
  impact_factor : Option Int
  quartile : Option String
  citations : Option Int
  authorships : Option AuthorshipsVal
  abstract_summary : Option String
  pmid : Option String
  publication_year : Option Int
  publication_month : Option Int
deriving DecidableEq, Repr

structure PaperRowClean where
  paper_id : Option String
  title : Option String
  journal_name : String
  impact_factor : Int
  quartile : String
  citations : Int
  authorships : Option AuthorshipsVal
  abstract_summary : String
  pmid : String
  publication_year : Int
  publication_month : Int
deriving DecidableEq, Repr

/-- The `fillna` cleaning block of app.py `load_data`. -/
def cleanPaperRow (r : PaperRowRaw) : PaperRowClean :=
  { paper_id := r.paper_id
    title := r.title
    journal_name := r.journal_name.getD "Unknown Journal"
    impact_factor := r.impact_factor.getD 0
    quartile := r.quartile.getD "Unknown"
    citations := r.citations.getD 0
    authorships := r.authorships
    abstract_summary := r.abstract_summary.getD "No summary available"
    pmid := r.pmid.getD "N/A"
    publication_year := r.publication_year.getD 0
    publication_month := r.publication_month.getD 0 }

structure AuthorRow where
  paper_id : Option String
  author_name : Option String
deriving DecidableEq, Repr

/-- app.py `load_data`: run the two queries and clean; there is no error
handler, so a failing query propagates out of the loader. -/
def app_load_data (papers_q : Except PyErr (List PaperRowRaw))
    (authors_q : Except PyErr (List AuthorRow)) :
    Except PyErr (List PaperRowClean × List AuthorRow) := do
  let papers ← papers_q
  let authors ← authors_q
  Except.ok (papers.map cleanPaperRow, authors)

/-- step_app.py `load_data`: run the five view queries, derive the
collaboration tables from the papers, and on any failure log and re-raise
(`except ...: print(...); raise`), so the error propagates.  The journal /
topic / productivity rows are opaque to every claim and modelled as strings. -/
def step_load_data (papers_q : Except PyErr (List (Option AuthorshipsVal)))
    (authors_q : Except PyErr (List AuthorRow))
    (journals_q topics_q productivity_q : Except PyErr (List String)) :
    Except PyErr (List (Option AuthorshipsVal) × List AuthorRow ×
      List String × List String × List String × (List String × List String)) := do
  let papers ← papers_q
  let authors ← authors_q
  let journals ← journals_q
  let topics ← topics_q
  let productivity ← productivity_q
  Except.ok (papers, authors, journals, topics, productivity,
    step_collab_core papers)

structure CollabRowRaw where
  author1 : Option String
  author2 : Option String
  collaboration_count : Option Int
  collaboration_years : Option String
  dept1_list : Option String
  dept2_list : Option String
  dept_collaboration_count : Option Int
  collaboration_type : Option String
deriving DecidableEq, Repr

structure CollabRowClean where
  author1 : Option String
  author2 : Option String
  collaboration_count : Int
  collaboration_years : String
  dept1_list : String
  dept2_list : String
  dept_collaboration_count : Int
  collaboration_type : String
  years_list : List Int
  first_collaboration : Option Int
  latest_collaboration : Option Int
  collaboration_span : Nat
deriving DecidableEq, Repr

def insertAscInt (x : Int) : List Int → List Int
  | [] => [x]
  | y :: ys => if x ≤ y then x :: y :: ys else y :: insertAscInt x ys

def sortAscInts : List Int → List Int
  | [] => []
  | x :: xs => insertAscInt x (sortAscInts xs)

/-- `sorted([int(y) for y in x.split(',')]) if x else []`; `int()` is assumed
to succeed on the stored year strings (an unparsable component is modelled
as 0). -/
def parseYearsList (x : String) : List Int :=
  if x = "" then []
  else sortAscInts ((pySplit x ",").map (fun y => (y.toInt?).getD 0))

/-- The per-row cleaning of `get_collaborations` (fillna plus the derived
years columns). -/
def cleanCollabRow (r : CollabRowRaw) : CollabRowClean :=
  let years := parseYearsList (r.collaboration_years.getD "")
  { author1 := r.author1
    author2 := r.author2
    collaboration_count := r.collaboration_count.getD 0
    collaboration_years := r.collaboration_years.getD ""
    dept1_list := r.dept1_list.getD "Unknown"
    dept2_list := r.dept2_list.getD "Unknown"
    dept_collaboration_count := r.dept_collaboration_count.getD 0
    collaboration_type := r.collaboration_type.getD "coauthor"
    years_list := years
    first_collaboration := years.min?
    latest_collaboration := years.max?
    collaboration_span := (firstOccs years).length }

structure CollabTable where
  columns : List String
  rows : List CollabRowClean
deriving DecidableEq, Repr

/-- The column set of the collaboration table, identical on the success and
failure paths of `get_collaborations`. -/
def collab_expected_columns : List String :=
  ["author1", "author2", "collaboration_count", "collaboration_years",
   "dept1_list", "dept2_list", "dept_collaboration_count",
   "collaboration_type", "years_list", "first_collaboration",
   "latest_collaboration", "collaboration_span"]

/-- step_app.py `BibliometricData.get_collaborations`: clean rows on success;
on any query failure, log and return an empty table with the expected
columns. -/
def get_collaborations (q : Except PyErr (List CollabRowRaw)) : CollabTable :=
  match q with
  | Except.ok rows => { columns := collab_expected_columns,
                        rows := rows.map cleanCollabRow }
  | Except.error _ => { columns := collab_expected_columns, rows := [] }

/-! ## Claim C6 -/

/-- C6 counterexample: when the backing papers query fails, both top-level
record loaders return that error rather than an empty table of the expected
shape — app.py `load_data` has no handler at all, and step_app.py `load_data`
logs and re-raises. -/
theorem spec_c6_counterexample_loader_propagates :
    app_load_data (Except.error PyErr.operationalError) (Except.ok []) =
      Except.error PyErr.operationalError ∧
    step_load_data (Except.error PyErr.operationalError) (Except.ok [])
        (Except.ok []) (Except.ok []) (Except.ok []) =
      Except.error PyErr.operationalError ∧
    app_load_data (Except.error PyErr.operationalError) (Except.ok []) ≠
      Except.ok ([], []) :=
  ⟨rfl, rfl, by simp [app_load_data, exceptBind_err]⟩

/-- C6 amended: only `BibliometricData.get_collaborations` replaces a failed
backing query with an empty table of the expected column shape; the
top-level loaders (`load_data` in app.py and step_app.py) propagate any
backing-query failure to their caller. -/
theorem spec_c6_only_collab_query_returns_empty_table :
    (∀ e, get_collaborations (Except.error e) =
      { columns := collab_expected_columns, rows := [] }) ∧
    (∀ e authors_q, app_load_data (Except.error e) authors_q =
      Except.error e) ∧
    (∀ e authors_q journals_q topics_q productivity_q,
      step_load_data (Except.error e) authors_q journals_q topics_q
        productivity_q = Except.error e) :=
  ⟨fun _ => rfl, fun _ _ => rfl, fun _ _ _ _ _ => rfl⟩

/-! ## Counter.most_common and the sankey aggregation cores -/

/-- `Counter(l).items()`: one (key, count) pair per distinct element, in
first-insertion order. -/
def counterItems {α : Type} [DecidableEq α] (l : List α) : List (α × Nat) :=
  (firstOccs l).map (fun x => (x, countOcc x l))

/-- Stable insertion by descending count (ties keep the earlier item first),
matching `sorted(items, key=count, reverse=True)` with a stable sort. -/
def insertByCountDesc {α : Type} (x : α × Nat) : List (α × Nat) → List (α × Nat)
  | [] => [x]
  | y :: ys => if y.2 ≤ x.2 then x :: y :: ys else y :: insertByCountDesc x ys

def sortByCountDesc {α : Type} : List (α × Nat) → List (α × Nat)
  | [] => []
  | x :: xs => insertByCountDesc x (sortByCountDesc xs)

/-- `Counter(l).most_common(n)`. -/
def mostCommon {α : Type} [DecidableEq α] (n : Nat) (l : List α) : List (α × Nat) :=
  (sortByCountDesc (counterItems l)).take n

/-- `{node: idx for idx, node in enumerate(nodes)}` lookup: on a duplicated
name the dict keeps the last index. -/
def pyDictIndex (nodes : List String) (x : String) : Nat :=
  nodes.length - 1 - nodes.reverse.indexOf x

/-- The cross-publication pair collection of app.py `create_sankey_diagram`:
over non-null rows, decode (unguarded `json.loads`) and append the per-paper
KHCC x external pairs. -/
def collectSankeyPairs : List (Option AuthorshipsVal) →
    Except PyErr (List (String × String))
  | [] => Except.ok []
  | none :: rest => collectSankeyPairs rest
  | some v :: rest => do
    let auths ← decodeAuthorshipsVal v
    let pairs ← sankeyPaperPairs auths
    let r ← collectSankeyPairs rest
    Except.ok (pairs ++ r)

structure SankeyData where
  nodes : List String
  sources : List Nat
  targets : List Nat
  values : List Nat
deriving DecidableEq, Repr

/-- The top-10 / link construction shared by both sankey builders: top 10
KHCC authors by pair count, top 10 external collaborators among pairs whose
KHCC side is in the top 10, and one weighted link per retained pair. -/
def sankeyFromPairs (collab : List (String × String)) : SankeyData :=
  let top_khcc := (mostCommon 10 (collab.map Prod.fst)).map Prod.fst
  let ext_counted := (collab.filter (fun p => decide (p.1 ∈ top_khcc))).map Prod.snd
  let top_ext := (mostCommon 10 ext_counted).map Prod.fst
  let nodes := top_khcc ++ top_ext
  let rels := (counterItems collab).filter
    (fun pc => decide (pc.1.1 ∈ top_khcc) && decide (pc.1.2 ∈ top_ext))
  { nodes := nodes
    sources := rels.map (fun pc => pyDictIndex nodes pc.1.1)
    targets := rels.map (fun pc => pyDictIndex nodes pc.1.2)
    values := rels.map (fun pc => pc.2) }

/-- app.py `create_sankey_diagram` aggregation core. -/
def create_sankey_core (papers : List (Option AuthorshipsVal)) :
    Except PyErr SankeyData := do
  let collab ← collectSankeyPairs papers
  Except.ok (sankeyFromPairs collab)

/-- The cross-publication pair collection of step_app.py
`create_sankey_diagram`: falsy rows are skipped (`if not auth: continue`),
rows whose JSON fails to decode are skipped (`except: continue`). -/
def stepCollectSankeyPairs : List (Option AuthorshipsVal) →
    Except PyErr (List (String × String))
  | [] => Except.ok []
  | none :: rest => stepCollectSankeyPairs rest
  | some (AuthorshipsVal.struct l) :: rest => do
    let (ks, es) ← stepSankeyFirstPass l
    let r ← stepCollectSankeyPairs rest
    Except.ok (pairProduct ks es ++ r)
  | some (AuthorshipsVal.text (some l)) :: rest => do
    let (ks, es) ← stepSankeyFirstPass l
    let r ← stepCollectSankeyPairs rest
    Except.ok (pairProduct ks es ++ r)
  | some (AuthorshipsVal.text none) :: rest => stepCollectSankeyPairs rest

/-- step_app.py `create_sankey_diagram` aggregation core. -/
def step_create_sankey_core (papers : List (Option AuthorshipsVal)) :
    Except PyErr SankeyData := do
  let collab ← stepCollectSankeyPairs papers
  Except.ok (sankeyFromPairs collab)

/-! ## app.py `create_enhanced_topic_graph` (lines 966-1133) aggregation core -/

structure Topic where
  display_name : Option String
deriving DecidableEq, Repr

/-- The per-row topic-name loop: `topic['display_name']` is a direct
subscript inside the blanket `try`, so names collected before a missing key
keep their count increments while the rest of the row (and its connection
pairs) is abandoned. -/
def collectTopicNames : List Topic → List String × Bool
  | [] => ([], true)
  | t :: rest =>
    match t.display_name with
    | none => ([], false)
    | some n =>
      let (ns, ok) := collectTopicNames rest
      (n :: ns, ok)

/-- The `for i ... for j in range(i+1, ...)` connection loop (unsorted pairs;
sorting happens at counting time). -/
def allPairsTopics : List String → List (String × String)
  | [] => []
  | t :: rest => rest.map (fun u => (t, u)) ++ allPairsTopics rest

/-- The per-table collection loop of `create_enhanced_topic_graph`: a row's
`topics` field is `none` when falsy or not a string, `some none` when the
JSON fails to decode (caught, row skipped), `some (some ts)` when it decodes. -/
def topicRowsCollect : List (Option (Option (List Topic))) →
    List String × List (String × String)
  | [] => ([], [])
  | row :: rest =>
    let r := topicRowsCollect rest
    match row with
    | none => r
    | some none => r
    | some (some ts) =>
      let (names, ok) := collectTopicNames ts
      (names ++ r.1, (if ok then allPairsTopics names else []) ++ r.2)

/-- `create_enhanced_topic_graph` aggregation core: significant topics
(count >= min_papers) and significant sorted connections
(count >= min_connections between significant topics). -/
def create_enhanced_topic_graph_core (min_papers min_connections : Nat)
    (papers : List (Option (Option (List Topic)))) :
    List String × List ((String × String) × Nat) :=
  let (mentions, conns) := topicRowsCollect papers
  let significant_topics := (firstOccs mentions).filter
    (fun t => decide (min_papers ≤ countOcc t mentions))
  let conn_counts := counterItems
    ((conns.filter (fun c => decide (c.1 ∈ significant_topics) &&
        decide (c.2 ∈ significant_topics))).map (fun c => sortPair c.1 c.2))
  let significant_connections := conn_counts.filter
    (fun pc => decide (min_connections ≤ pc.2))
  (significant_topics, significant_connections)

/-! ## Claim C4 -/

/-- C4: on an empty publication table every aggregate core returns
zero-length structures and no error: the frequency charts, both sankey
builders, the department charts (which take their explicit empty early
return), the topic graph, and the step_app collaboration extraction. -/
theorem spec_c4_empty_table_zero_aggregates :
    create_frequency_charts_core true [] = Except.ok ([], [], []) ∧
    create_sankey_core [] =
      Except.ok { nodes := [], sources := [], targets := [], values := [] } ∧
    step_create_sankey_core [] =
      Except.ok { nodes := [], sources := [], targets := [], values := [] } ∧
    deptChartsCore [] = Except.ok ([], []) ∧
    (∀ min_papers min_connections,
      create_enhanced_topic_graph_core min_papers min_connections [] = ([], [])) ∧
    step_collab_core [] = ([], []) :=
  ⟨rfl, rfl, rfl, rfl, fun _ _ => rfl, rfl⟩
